import Mathlib

/-!
Shallow embedding of the instance-liveness core of the polaris repository:
the in-memory heartbeat health checker (package `heartbeatmemory`), the
leader-delegation beat-record caches (package `leader`), the gRPC batch
heartbeat access layer (package `v1`), and the maintenance-job runner
(package `job`).  Go machine integers (`int64`) are modelled as `Int`
(the quantities involved are wall-clock seconds and counters, far from
the overflow range, and no arithmetic in the translated code wraps);
`uint32` fields are modelled as `Nat` and cast to `Int` exactly where the
Go source performs an `int64(...)` conversion.  Go's `(value, error)`
returns are modelled with `Except String`; a `nil` error is `.ok`.
Go maps are modelled either as functions to `Option` or as association
lists, as noted on each definition.
-/

namespace plugin

/-- `plugin.QueryRequest` (plugin package of the repository; fields as used
by the translated sources, with Go zero values as defaults). -/
structure QueryRequest where
  InstanceId : String
  Host : String := ""
  Port : Nat := 0
  Healthy : Bool := false
deriving DecidableEq, Repr

/-- `plugin.QueryResponse` (plugin package; fields as used by the translated
sources — `Server`, `LastHeartbeatSec`, `Count`, `Exists` — with Go zero
values as defaults, so a composite literal that omits a field leaves it at
its zero value exactly as in Go). -/
structure QueryResponse where
  Server : String := ""
  LastHeartbeatSec : Int := 0
  Count : Int := 0
  Exists : Bool := false
deriving DecidableEq, Repr

/-- `plugin.CheckRequest` (plugin package): embeds `QueryRequest` (Go struct
embedding; the promoted selectors are given below), carries
`ExpireDurationSec` (`uint32` in Go, hence `Nat`) and `CurTimeSec`
(a `func() int64` in Go; modelled as the `Int` it returns). -/
structure CheckRequest where
  queryRequest : QueryRequest
  CurTimeSec : Int
  ExpireDurationSec : Nat
deriving DecidableEq, Repr

/-- Go field promotion: `request.InstanceId` on a `CheckRequest`. -/
def CheckRequest.InstanceId (r : CheckRequest) : String :=
  r.queryRequest.InstanceId

/-- Go field promotion: `request.Healthy` on a `CheckRequest`. -/
def CheckRequest.Healthy (r : CheckRequest) : Bool :=
  r.queryRequest.Healthy

/-- `plugin.CheckResponse` (plugin package; fields as used by the translated
sources, Go zero values as defaults). -/
structure CheckResponse where
  Healthy : Bool := false
  LastHeartbeatTimeSec : Int := 0
  StayUnchanged : Bool := false
deriving DecidableEq, Repr

/-- Abstract view of a `plugin.HealthChecker` as consumed by the gRPC access
layer (`heartbeat_access.go` calls only `Query` and `Delete`); `Delete`'s
observable at that call site is its error value. -/
structure HealthChecker where
  Query : QueryRequest → Except String QueryResponse
  Delete : String → Except String Unit

end plugin

namespace heartbeatmemory

/-- `HeartbeatRecord` of package `heartbeatmemory` (`src/unnamed/part_000`). -/
structure HeartbeatRecord where
  Server : String
  CurTimeSec : Int
  Count : Int
deriving DecidableEq, Repr

/-- `MemoryHealthChecker` state: `hbRecords` is a `sync.Map` from instance id
to `HeartbeatRecord`, modelled as a function to `Option`; `suspendTimeSec`
is an `int64` accessed atomically, modelled as a plain `Int` field (the
embedding is sequential). -/
structure MemoryHealthChecker where
  hbRecords : String → Option HeartbeatRecord
  suspendTimeSec : Int

/-- `MemoryHealthChecker.SuspendTimeSec`: atomic load of the suspend time. -/
def MemoryHealthChecker.SuspendTimeSec (r : MemoryHealthChecker) : Int :=
  r.suspendTimeSec

/-- `MemoryHealthChecker.Suspend`: stores the current wall-clock seconds
(`commontime.CurrentMillisecond() / 1000`, passed here as `curTimeMilli`)
atomically into `suspendTimeSec`. -/
def MemoryHealthChecker.Suspend (r : MemoryHealthChecker) (curTimeMilli : Int) :
    MemoryHealthChecker :=
  { r with suspendTimeSec := curTimeMilli }

/-- `MemoryHealthChecker.Report`: stores a record under the instance id. -/
def MemoryHealthChecker.Report (r : MemoryHealthChecker) (instanceId : String)
    (localHost : String) (curTimeSec : Int) (count : Int) : MemoryHealthChecker :=
  { r with hbRecords := fun k =>
      if k = instanceId then
        some { Server := localHost, CurTimeSec := curTimeSec, Count := count }
      else r.hbRecords k }

/-- `MemoryHealthChecker.Query` (`src/unnamed/part_000:84`): on a map miss
returns `{LastHeartbeatSec: 0}` (all other fields zero) and a nil error; on
a hit returns `Server`, `LastHeartbeatSec := record.CurTimeSec` and `Count`
(note: the `Exists` field is never assigned, so it stays at its zero value
`false`); the error is always nil. -/
def MemoryHealthChecker.Query (r : MemoryHealthChecker)
    (request : plugin.QueryRequest) : Except String plugin.QueryResponse :=
  match r.hbRecords request.InstanceId with
  | none => .ok { LastHeartbeatSec := 0 }
  | some record =>
      .ok { Server := record.Server
            LastHeartbeatSec := record.CurTimeSec
            Count := record.Count }

/-- `MemoryHealthChecker.skipCheck` (`src/unnamed/part_000:100`):
`localCurTimeSec` is the wall clock (`CurrentMillisecond()/1000`), passed
here as the parameter `localCurTimeSec`. -/
def MemoryHealthChecker.skipCheck (r : MemoryHealthChecker)
    (expireDurationSec : Int) (localCurTimeSec : Int) : Bool :=
  let suspendTimeSec := r.SuspendTimeSec
  if suspendTimeSec > 0 ∧ localCurTimeSec ≥ suspendTimeSec ∧
      localCurTimeSec - suspendTimeSec < expireDurationSec then
    true
  else
    false

/-- `MemoryHealthChecker.Check` (`src/unnamed/part_000:113`).  The wall
clock read inside `skipCheck` is the parameter `now`; `request.CurTimeSec()`
is the request's own clock field.  The response starts as
`{LastHeartbeatTimeSec: last}` with `Healthy` and `StayUnchanged` at their
zero value `false`, exactly as the Go composite literal leaves them. -/
def MemoryHealthChecker.Check (r : MemoryHealthChecker)
    (request : plugin.CheckRequest) (now : Int) : Except String plugin.CheckResponse :=
  match r.Query request.queryRequest with
  | .error e => .error e
  | .ok queryResp =>
    let lastHeartbeatTime := queryResp.LastHeartbeatSec
    let checkResp : plugin.CheckResponse := { LastHeartbeatTimeSec := lastHeartbeatTime }
    let curTimeSec := request.CurTimeSec
    if r.skipCheck (request.ExpireDurationSec : Int) now then
      .ok { checkResp with StayUnchanged := true }
    else if curTimeSec > lastHeartbeatTime ∧
        curTimeSec - lastHeartbeatTime ≥ (request.ExpireDurationSec : Int) then
      if request.Healthy then
        .ok { checkResp with Healthy := false }
      else
        .ok { checkResp with Healthy := false, StayUnchanged := true }
    else
      if request.Healthy then
        .ok { checkResp with Healthy := true, StayUnchanged := true }
      else
        .ok { checkResp with Healthy := true }

/-- `MemoryHealthChecker.Delete`: removes the id from the record map and
returns a nil error. -/
def MemoryHealthChecker.Delete (r : MemoryHealthChecker) (id : String) :
    MemoryHealthChecker :=
  { r with hbRecords := fun k => if k = id then none else r.hbRecords k }

/-- The last-heartbeat value `Check` observes: the stored record's
`CurTimeSec`, or `0` when the record is missing. -/
def MemoryHealthChecker.lastHeartbeatSec (r : MemoryHealthChecker)
    (instanceId : String) : Int :=
  match r.hbRecords instanceId with
  | none => 0
  | some record => record.CurTimeSec

/-- The abstract checker view of a `MemoryHealthChecker`, as the gRPC access
layer consumes it: `Query` as translated above; `Delete` always returns a
nil error (its map mutation is not observable through the error channel the
access layer inspects). -/
def MemoryHealthChecker.asChecker (r : MemoryHealthChecker) : plugin.HealthChecker :=
  { Query := r.Query, Delete := fun _ => .ok () }

end heartbeatmemory

namespace apiservice

/-- Wire type `apiservice.HeartbeatRecord` (specification package; fields as
produced and consumed by the translated sources). -/
structure HeartbeatRecord where
  InstanceId : String := ""
  LastHeartbeatSec : Int := 0
  Exist : Bool := false
deriving DecidableEq, Repr

/-- Wire type `apiservice.GetHeartbeatsRequest`. -/
structure GetHeartbeatsRequest where
  InstanceIds : List String := []
deriving DecidableEq, Repr

/-- Wire type `apiservice.GetHeartbeatsResponse`. -/
structure GetHeartbeatsResponse where
  Records : List HeartbeatRecord := []
deriving DecidableEq, Repr

/-- Wire type `apiservice.DelHeartbeatsRequest`. -/
structure DelHeartbeatsRequest where
  InstanceIds : List String := []
deriving DecidableEq, Repr

/-- Wire type `apiservice.DelHeartbeatsResponse` (empty message). -/
structure DelHeartbeatsResponse where
deriving DecidableEq, Repr

/-- Wire type `apiservice.InstanceHeartbeat` (fields of the message, Go/proto
zero values as defaults). -/
structure InstanceHeartbeat where
  Service : String := ""
  Namespace : String := ""
  Host : String := ""
  Port : Nat := 0
  InstanceId : String := ""
deriving DecidableEq, Repr

/-- Wire type `apiservice.HeartbeatsRequest`. -/
structure HeartbeatsRequest where
  Heartbeats : List InstanceHeartbeat := []
deriving DecidableEq, Repr

end apiservice

namespace leader

/-- `RecordValue` of package `leader` (`beat_cache.go:42`). -/
structure RecordValue where
  Server : String := ""
  CurTimeSec : Int := 0
  Count : Int := 0
deriving DecidableEq, Repr

/-- The Go zero value of `RecordValue`. -/
def RecordValue.zero : RecordValue := {}

/-- `ReadBeatRecord` (`beat_cache.go:30`): record plus existence flag. -/
structure ReadBeatRecord where
  Record : RecordValue := RecordValue.zero
  Exist : Bool := false
deriving DecidableEq, Repr

/-- `WriteBeatRecord` (`beat_cache.go:36`). -/
structure WriteBeatRecord where
  Record : RecordValue
  Key : String
deriving DecidableEq, Repr

/-- Modelled from the spec: `utils.SegmentMap` (package `common/utils`, not
part of the given sources).  The spec describes it as a fixed-shard,
lock-striped mapping whose `Get(k)` acquires the shard lock and "returns
zero value and `false` on miss", whose `Put(k, v)` inserts or overwrites
(last writer wins), and whose `Del(k)` returns whether the key existed.
Sequentially, it is therefore a plain partial map; the shard decomposition
is invisible to `Get`/`Put`/`Del`, so the model is a function to `Option`. -/
structure SegmentMap (V : Type) where
  data : String → Option V

/-- Modelled from the spec: `SegmentMap.Get` returns the zero value and
`false` on a miss, the stored value and `true` on a hit. -/
def SegmentMap.Get (m : SegmentMap V) (zero : V) (k : String) : V × Bool :=
  match m.data k with
  | none => (zero, false)
  | some v => (v, true)

/-- Modelled from the spec: `SegmentMap.Put` inserts or overwrites. -/
def SegmentMap.Put (m : SegmentMap V) (k : String) (v : V) : SegmentMap V :=
  { data := fun x => if x = k then some v else m.data x }

/-- Modelled from the spec: `SegmentMap.Del` removes the key. -/
def SegmentMap.Del (m : SegmentMap V) (k : String) : SegmentMap V :=
  { data := fun x => if x = k then none else m.data x }

/-- `LocalBeatRecordCache` (`beat_cache.go:93`): backed by a
`SegmentMap[string, RecordValue]` (the hash function and shard count only
route keys to shards and do not affect the sequential map semantics). -/
structure LocalBeatRecordCache where
  beatCache : SegmentMap RecordValue

/-- `LocalBeatRecordCache.Get` (`beat_cache.go:99`): for every requested key
builds `ReadBeatRecord{Record: val, Exist: ok}` from the segment map's
`Get`.  The returned Go map is modelled as an association list in request
order (later duplicate keys in Go overwrite with the identical entry). -/
def LocalBeatRecordCache.Get (lc : LocalBeatRecordCache) (keys : List String) :
    List (String × ReadBeatRecord) :=
  keys.map fun key =>
    let vo := lc.beatCache.Get RecordValue.zero key
    (key, { Record := vo.1, Exist := vo.2 })

/-- `LocalBeatRecordCache.Put` (`beat_cache.go:112`). -/
def LocalBeatRecordCache.Put (lc : LocalBeatRecordCache)
    (records : List WriteBeatRecord) : LocalBeatRecordCache :=
  { beatCache := records.foldl (fun m record => m.Put record.Key record.Record) lc.beatCache }

/-- `LocalBeatRecordCache.Del` (`beat_cache.go:122`). -/
def LocalBeatRecordCache.Del (lc : LocalBeatRecordCache) (keys : List String) :
    LocalBeatRecordCache :=
  { beatCache := keys.foldl (fun m key => m.Del key) lc.beatCache }

/-- `RemoteBeatRecordCache.Get` (`beat_cache.go:163`), with the RPC `getter`
as a parameter.  The Go code first fills a map with `Exist: false` for every
requested key, then walks the response records: for a record whose
`InstanceId` is found, it overwrites that entry's `Exist` and `Record`
through the map's pointer value; for a record whose `InstanceId` is NOT a
requested key, the lookup yields a nil pointer and the branch assigns
`val.Exist = false` through it — a nil-pointer dereference (panic), modelled
as `none`.  The map is modelled as a function to `Option`. -/
def RemoteBeatRecordCache.applyRecord (ret : String → Option ReadBeatRecord)
    (record : apiservice.HeartbeatRecord) : Option (String → Option ReadBeatRecord) :=
  match ret record.InstanceId with
  | none => none
  | some _ =>
      some fun k =>
        if k = record.InstanceId then
          some { Exist := record.Exist
                 Record := { CurTimeSec := record.LastHeartbeatSec } }
        else ret k

/-- The record-walking loop of `RemoteBeatRecordCache.Get`, in response
order; `none` models the nil-pointer panic. -/
def RemoteBeatRecordCache.applyRecords (ret : String → Option ReadBeatRecord) :
    List apiservice.HeartbeatRecord → Option (String → Option ReadBeatRecord)
  | [] => some ret
  | record :: rest =>
      match RemoteBeatRecordCache.applyRecord ret record with
      | none => none
      | some ret1 => RemoteBeatRecordCache.applyRecords ret1 rest

/-- `RemoteBeatRecordCache.Get` (`beat_cache.go:163`): initial map with
`Exist: false` for every requested key, then the response walk. -/
def RemoteBeatRecordCache.Get
    (getter : apiservice.GetHeartbeatsRequest → apiservice.GetHeartbeatsResponse)
    (keys : List String) : Option (String → Option ReadBeatRecord) :=
  let ret : String → Option ReadBeatRecord :=
    fun k => if keys.contains k then some { Exist := false } else none
  let resp := getter { InstanceIds := keys }
  RemoteBeatRecordCache.applyRecords ret resp.Records

/-- `RemoteBeatRecordCache.Put` (`beat_cache.go:189`): the request handed to
the `saver` — one `InstanceHeartbeat` per write record, carrying only the
record's `Key` as `InstanceId` (all other message fields stay at their zero
values).  The saver returns nothing, so the built request is the observable
of `Put`. -/
def RemoteBeatRecordCache.PutRequest (records : List WriteBeatRecord) :
    apiservice.HeartbeatsRequest :=
  { Heartbeats := records.map fun record => { InstanceId := record.Key } }

end leader

/-- Whether a Go-style `(value, error)` return carries a nil error. -/
def exceptIsOk {ε α : Type} : Except ε α → Bool
  | .ok _ => true
  | .error _ => false

namespace v1

/-- The per-key query loop of `DiscoverServer.BatchGetHeartbeat`
(`heartbeat_access.go:37`): queries each id in order, aborts on the first
error, otherwise appends `{InstanceId, LastHeartbeatSec, Exist: resp.Exists}`. -/
def batchQuery (checker : plugin.HealthChecker) :
    List String → Except String (List apiservice.HeartbeatRecord)
  | [] => .ok []
  | key :: rest =>
      match checker.Query { InstanceId := key } with
      | .error e => .error e
      | .ok resp =>
          match batchQuery checker rest with
          | .error e => .error e
          | .ok records =>
              .ok ({ InstanceId := key
                     LastHeartbeatSec := resp.LastHeartbeatSec
                     Exist := resp.Exists } :: records)

/-- `DiscoverServer.BatchGetHeartbeat` (`heartbeat_access.go:29`): `checkers`
is the heartbeat entry of `healthCheckServer.Checkers()` (`none` when no
checker of kind heartbeat is registered, in which case the empty response
and nil error are returned). -/
def BatchGetHeartbeat (checkers : Option plugin.HealthChecker)
    (req : apiservice.GetHeartbeatsRequest) :
    Except String apiservice.GetHeartbeatsResponse :=
  match checkers with
  | none => .ok {}
  | some checker =>
      match batchQuery checker req.InstanceIds with
      | .error e => .error e
      | .ok records => .ok { Records := records }

/-- The per-key delete loop of `DiscoverServer.BatchDelHeartbeat`
(`heartbeat_access.go:64`). -/
def batchDel (checker : plugin.HealthChecker) : List String → Except String Unit
  | [] => .ok ()
  | key :: rest =>
      match checker.Delete key with
      | .error e => .error e
      | .ok _ => batchDel checker rest

/-- `DiscoverServer.BatchDelHeartbeat` (`heartbeat_access.go:57`). -/
def BatchDelHeartbeat (checkers : Option plugin.HealthChecker)
    (req : apiservice.DelHeartbeatsRequest) :
    Except String apiservice.DelHeartbeatsResponse :=
  match checkers with
  | none => .ok {}
  | some checker =>
      match batchDel checker req.InstanceIds with
      | .error e => .error e
      | .ok _ => .ok {}

end v1

namespace job

/-- `store.ElectionKeyMaintainJobPrefix + name`: the election key of a
maintenance job. -/
def maintainJobElectionKey (name : String) : String :=
  "MAINTAIN_JOB/" ++ name

/-- The job methods a tick can invoke. -/
inductive JobAction where
  | execute
  | clear
deriving DecidableEq, Repr

/-- One tick of a started maintenance job: the closure `f` inside
`runAdminJob` (`job.go:104`), with `storage.IsLeader` as a parameter.  The
result is the sequence of job methods the tick invokes: a follower tick
calls `job.clear()` and returns; a leader tick calls `job.execute()`. -/
def runAdminJobTick (isLeader : String → Bool) (name : String) : List JobAction :=
  if !(isLeader (maintainJobElectionKey name)) then
    [JobAction.clear]
  else
    [JobAction.execute]

end job

namespace heartbeatmemory

/-- The checker of scenario S2: one record `(id="i", last=100, count=1)`,
not suspended. -/
def s2Checker : MemoryHealthChecker :=
  { hbRecords := fun k =>
      if k = "i" then some { Server := "", CurTimeSec := 100, Count := 1 } else none
    suspendTimeSec := 0 }

/-- The check request of scenario S2: `cur=200, expire=50, healthy=true`. -/
def s2Request : plugin.CheckRequest :=
  { queryRequest := { InstanceId := "i", Healthy := true }
    CurTimeSec := 200, ExpireDurationSec := 50 }

/-- The response `Check` produces in scenario S2. -/
def s2Response : plugin.CheckResponse :=
  { Healthy := false, LastHeartbeatTimeSec := 100, StayUnchanged := false }

/-- The checker of scenario S5: no records, `Suspend()` called at `t=1000`. -/
def s5Checker : MemoryHealthChecker :=
  ({ hbRecords := fun _ => none, suspendTimeSec := 0 } : MemoryHealthChecker).Suspend 1000

/-- The check request of scenario S5: `expire=60, last=0, healthy=true` at
`t=1020`. -/
def s5Request : plugin.CheckRequest :=
  { queryRequest := { InstanceId := "i", Healthy := true }
    CurTimeSec := 1020, ExpireDurationSec := 60 }

end heartbeatmemory

namespace leader

/-- A local cache with no stored records. -/
def emptyLocalCache : LocalBeatRecordCache :=
  { beatCache := { data := fun _ => none } }

/-- A getter answering instance "a" with a well-formed record. -/
def goodGetter (_ : apiservice.GetHeartbeatsRequest) : apiservice.GetHeartbeatsResponse :=
  { Records := [{ InstanceId := "a", LastHeartbeatSec := 5, Exist := true }] }

/-- A getter answering with a record for "zz", an instance never requested. -/
def strayGetter (_ : apiservice.GetHeartbeatsRequest) : apiservice.GetHeartbeatsResponse :=
  { Records := [{ InstanceId := "zz", LastHeartbeatSec := 5, Exist := true }] }

end leader

/-- A concrete checker for the C5 witness: every id succeeds except "bad",
which fails both `Query` and `Delete` with error "boom". -/
def failOnBadChecker : plugin.HealthChecker :=
  { Query := fun q =>
      if q.InstanceId = "bad" then .error "boom" else .ok { LastHeartbeatSec := 7 }
    Delete := fun i =>
      if i = "bad" then .error "boom" else .ok () }

namespace heartbeatmemory

example :
    (({ hbRecords := fun k => if k = "i" then some { Server := "", CurTimeSec := 100, Count := 1 } else none
        suspendTimeSec := 0 } : MemoryHealthChecker).Check
      { queryRequest := { InstanceId := "i", Healthy := true }
        CurTimeSec := 200, ExpireDurationSec := 50 } 200) =
    .ok { Healthy := false, LastHeartbeatTimeSec := 100, StayUnchanged := false } := rfl

example :
    (({ hbRecords := fun _ => none
        suspendTimeSec := 0 } : MemoryHealthChecker).Suspend 1000).Check
      { queryRequest := { InstanceId := "i", Healthy := true }
        CurTimeSec := 1020, ExpireDurationSec := 60 } 1020 =
    .ok { Healthy := false, LastHeartbeatTimeSec := 0, StayUnchanged := true } := rfl

example :
    (({ hbRecords := fun k => if k = "i" then some { Server := "", CurTimeSec := 500, Count := 1 } else none
        suspendTimeSec := 0 } : MemoryHealthChecker).Check
      { queryRequest := { InstanceId := "i", Healthy := false }
        CurTimeSec := 510, ExpireDurationSec := 50 } 510) =
    .ok { Healthy := true, LastHeartbeatTimeSec := 500, StayUnchanged := false } := rfl

/-- Closed form of `Check`: it always returns a nil error, and the response
is determined by the suspend window, the stored last-heartbeat time and the
expiry comparison. -/
lemma MemoryHealthChecker.check_eq (r : MemoryHealthChecker)
    (request : plugin.CheckRequest) (now : Int) :
    r.Check request now =
      .ok (if r.skipCheck (request.ExpireDurationSec : Int) now then
             { LastHeartbeatTimeSec := r.lastHeartbeatSec request.InstanceId
               StayUnchanged := true }
           else if request.CurTimeSec > r.lastHeartbeatSec request.InstanceId ∧
               request.CurTimeSec - r.lastHeartbeatSec request.InstanceId ≥
                 (request.ExpireDurationSec : Int) then
             { LastHeartbeatTimeSec := r.lastHeartbeatSec request.InstanceId
               Healthy := false
               StayUnchanged := !request.Healthy }
           else
             { LastHeartbeatTimeSec := r.lastHeartbeatSec request.InstanceId
               Healthy := true
               StayUnchanged := request.Healthy }) := by
  unfold MemoryHealthChecker.Check MemoryHealthChecker.Query
    MemoryHealthChecker.lastHeartbeatSec plugin.CheckRequest.InstanceId
    plugin.CheckRequest.Healthy
  cases hrec : r.hbRecords request.queryRequest.InstanceId <;>
    simp only [] <;>
    split_ifs <;>
    cases hh : request.queryRequest.Healthy <;>
    simp_all

/-- C1: for every `Check` call on the heartbeat health evaluator with prior
`healthy=true`, last heartbeat time `L` (0 if the record is missing),
current time `C`, and expire duration `E`, when the checker is not
suspended the response transitions to `healthy=false` if and only if
`C > L` and `C - L ≥ E`. -/
theorem check_expiry_transition_iff (r : MemoryHealthChecker)
    (request : plugin.CheckRequest) (now : Int) (resp : plugin.CheckResponse)
    (_hHealthy : request.Healthy = true)
    (hNoSkip : r.skipCheck (request.ExpireDurationSec : Int) now = false)
    (hRun : r.Check request now = .ok resp) :
    resp.Healthy = false ↔
      (request.CurTimeSec > r.lastHeartbeatSec request.InstanceId ∧
       request.CurTimeSec - r.lastHeartbeatSec request.InstanceId ≥
         (request.ExpireDurationSec : Int)) := by
  rw [MemoryHealthChecker.check_eq] at hRun
  rw [hNoSkip] at hRun
  simp only [Bool.false_eq_true, if_false] at hRun
  split_ifs at hRun with hcond
  · simp only [Except.ok.injEq] at hRun
    subst hRun
    simpa using hcond
  · simp only [Except.ok.injEq] at hRun
    subst hRun
    simpa using hcond

/-- C1 witness: scenario S2 — `Check` on `s2Checker`/`s2Request` returns
`s2Response`, whose `Healthy = false` matches the expiry condition. -/
theorem check_expiry_transition_iff_witness :
    s2Checker.Check s2Request 200 = .ok s2Response ∧
    (s2Response.Healthy = false ↔
      (s2Request.CurTimeSec > s2Checker.lastHeartbeatSec s2Request.InstanceId ∧
       s2Request.CurTimeSec - s2Checker.lastHeartbeatSec s2Request.InstanceId ≥
         (s2Request.ExpireDurationSec : Int))) :=
  ⟨rfl, check_expiry_transition_iff s2Checker s2Request 200 s2Response rfl rfl rfl⟩

/-- C2 counterexample: at `t=1020`, inside the window
`[1000, 1000+60)` opened by `Suspend()` at `t=1000`, the evaluator DOES
return a response whose `Healthy` field is `false` (the Go composite
literal leaves `Healthy` at its zero value and the suspend branch never
assigns it); the claim that it never returns `healthy=false` in the window
is therefore false as stated.  `StayUnchanged` is `true`. -/
theorem suspend_window_healthy_false_counterexample :
    (0 : Int) < 1000 ∧ (1000 : Int) ≤ 1020 ∧ (1020 : Int) - 1000 < 60 ∧
    s5Checker.Check s5Request 1020 =
      .ok { Healthy := false, LastHeartbeatTimeSec := 0, StayUnchanged := true } := by
  refine ⟨by norm_num, by norm_num, by norm_num, rfl⟩

/-- C2 (amended): for every `Check` call whose wall-clock time lies in
`[suspend_time, suspend_time + expire_duration)` after `Suspend()` recorded
`suspend_time > 0`, the evaluator returns `stay_unchanged=true`, so it never
reports a transition to unhealthy; the response's `Healthy` field is left at
its zero value `false` and is to be ignored by the caller. -/
theorem suspend_window_stay_unchanged (r : MemoryHealthChecker)
    (suspendTime now : Int) (request : plugin.CheckRequest)
    (resp : plugin.CheckResponse)
    (hPos : 0 < suspendTime) (hLo : suspendTime ≤ now)
    (hHi : now - suspendTime < (request.ExpireDurationSec : Int))
    (hRun : (r.Suspend suspendTime).Check request now = .ok resp) :
    resp.StayUnchanged = true ∧ resp.Healthy = false := by
  have hskip : (r.Suspend suspendTime).skipCheck (request.ExpireDurationSec : Int) now = true := by
    unfold MemoryHealthChecker.skipCheck MemoryHealthChecker.SuspendTimeSec
      MemoryHealthChecker.Suspend
    simp only [if_pos]
    rw [if_pos]
    exact ⟨hPos, hLo, hHi⟩
  rw [MemoryHealthChecker.check_eq, hskip] at hRun
  simp only [if_true, Except.ok.injEq] at hRun
  subst hRun
  exact ⟨rfl, rfl⟩

/-- C2 witness: scenario S5 instantiates the amended theorem. -/
theorem suspend_window_stay_unchanged_witness :
    (({ Healthy := false, LastHeartbeatTimeSec := 0, StayUnchanged := true } :
        plugin.CheckResponse).StayUnchanged = true ∧
     ({ Healthy := false, LastHeartbeatTimeSec := 0, StayUnchanged := true } :
        plugin.CheckResponse).Healthy = false) :=
  suspend_window_stay_unchanged
    { hbRecords := fun _ => none, suspendTimeSec := 0 } 1000 1020 s5Request
    { Healthy := false, LastHeartbeatTimeSec := 0, StayUnchanged := true }
    (by norm_num) (by norm_num) (by decide) rfl

/-- C3: for every expire duration `E` and wall-clock time `now`, `skipCheck`
returns true iff the recorded suspend time is strictly positive, `now` is at
least the suspend time, and `now - suspend_time < E`; and `Suspend` records
the passed wall-clock seconds into the suspend-time cell (the atomic
store/load pair of the source collapses to a plain field in this sequential
embedding). -/
theorem skipCheck_iff_and_suspend_records (r : MemoryHealthChecker)
    (expireDurationSec now t : Int) :
    (r.skipCheck expireDurationSec now = true ↔
      (0 < r.SuspendTimeSec ∧ r.SuspendTimeSec ≤ now ∧
       now - r.SuspendTimeSec < expireDurationSec)) ∧
    (r.Suspend t).SuspendTimeSec = t := by
  constructor
  · show (if r.SuspendTimeSec > 0 ∧ now ≥ r.SuspendTimeSec ∧
        now - r.SuspendTimeSec < expireDurationSec then true else false) = true ↔ _
    split_ifs with h
    · simpa using h
    · simpa using h
  · rfl

/-- C3 witness: a checker suspended at `t=1000`, probed at `now=1020` with
`expire=60`. -/
theorem skipCheck_iff_and_suspend_records_witness :
    ((s5Checker.skipCheck 60 1020 = true ↔
       (0 < s5Checker.SuspendTimeSec ∧ s5Checker.SuspendTimeSec ≤ 1020 ∧
        (1020 : Int) - s5Checker.SuspendTimeSec < 60)) ∧
     (s5Checker.Suspend 7).SuspendTimeSec = 7) :=
  skipCheck_iff_and_suspend_records s5Checker 60 1020 7

/-- C7: the health evaluator is idempotent — if `Check` runs once and then
runs again at the same current time with the prior-healthy input updated to
the first call's resulting health and no intervening record or suspend
change, the second call returns `stay_unchanged=true`. -/
theorem check_idempotent (r : MemoryHealthChecker)
    (request : plugin.CheckRequest) (now : Int)
    (resp1 resp2 : plugin.CheckResponse)
    (h1 : r.Check request now = .ok resp1)
    (h2 : r.Check
        { request with queryRequest := { request.queryRequest with Healthy := resp1.Healthy } }
        now = .ok resp2) :
    resp2.StayUnchanged = true := by
  rw [MemoryHealthChecker.check_eq] at h1 h2
  simp only [Except.ok.injEq] at h1 h2
  subst h1
  subst h2
  simp only [plugin.CheckRequest.InstanceId, plugin.CheckRequest.Healthy] at *
  split_ifs <;> simp_all

/-- C7 witness: scenario S2 run twice — the second run with the prior-healthy
input set to the first result's `Healthy = false` returns
`stay_unchanged=true`. -/
theorem check_idempotent_witness :
    (({ Healthy := false, LastHeartbeatTimeSec := 100, StayUnchanged := true } :
        plugin.CheckResponse).StayUnchanged = true) :=
  check_idempotent s2Checker s2Request 200 s2Response
    { Healthy := false, LastHeartbeatTimeSec := 100, StayUnchanged := true }
    rfl rfl

end heartbeatmemory

/-- C4: on every tick of a started maintenance job, if `IsLeader` on the
job's election key is false the tick invokes `job.clear()` and not
`job.execute()`; if it is true the tick invokes `job.execute()` and not
`job.clear()`. -/
theorem runAdminJobTick_leader_gate (isLeader : String → Bool) (name : String) :
    (job.JobAction.clear ∈ job.runAdminJobTick isLeader name ↔
      isLeader (job.maintainJobElectionKey name) = false) ∧
    (job.JobAction.execute ∈ job.runAdminJobTick isLeader name ↔
      isLeader (job.maintainJobElectionKey name) = true) := by
  cases h : isLeader (job.maintainJobElectionKey name) <;>
    simp [job.runAdminJobTick, h]

/-- C4 witness: a leader tick of job "CleanDeletedClients" and a follower
tick of the same job. -/
theorem runAdminJobTick_leader_gate_witness :
    (job.JobAction.clear ∈ job.runAdminJobTick (fun _ => true) "CleanDeletedClients" ↔
      (fun _ : String => true) (job.maintainJobElectionKey "CleanDeletedClients") = false) ∧
    (job.JobAction.execute ∈ job.runAdminJobTick (fun _ => true) "CleanDeletedClients" ↔
      (fun _ : String => true) (job.maintainJobElectionKey "CleanDeletedClients") = true) :=
  runAdminJobTick_leader_gate (fun _ => true) "CleanDeletedClients"

namespace leader

/-- Looking up any element of `keys` in the association list that tabulates
`f` over `keys` yields `f` of that element. -/
lemma lookup_map_tabulate (f : String → ReadBeatRecord) (keys : List String)
    (k : String) (hk : k ∈ keys) :
    (keys.map fun key => (key, f key)).lookup k = some (f k) := by
  induction keys with
  | nil => cases hk
  | cons a as ih =>
      rcases List.mem_cons.mp hk with h | h
      · subst h
        simp [List.lookup]
      · by_cases hka : k = a
        · subst hka
          simp [List.lookup]
        · have hb : (k == a) = false := by
            simp [hka]
          simp only [List.map_cons, List.lookup, hb]
          exact ih h

/-- The first projections of a tabulating association list are the keys. -/
lemma map_fst_tabulate (f : String → ReadBeatRecord) (keys : List String) :
    (keys.map fun key => (key, f key)).map Prod.fst = keys := by
  induction keys with
  | nil => rfl
  | cons a as ih => simp [ih]

/-- C6: `LocalBeatRecordCache.Get` returns an entry for every requested key
(the result tabulates exactly the requested keys, in request order); a key
with no stored record maps to `exist=false` with a zero-valued record; the
operation is total, never failing. -/
theorem local_get_entry_for_every_key (lc : LocalBeatRecordCache)
    (keys : List String) (k : String) (hk : k ∈ keys) :
    ((lc.Get keys).map Prod.fst = keys) ∧
    (lc.Get keys).lookup k =
      some { Record := (lc.beatCache.Get RecordValue.zero k).1
             Exist := (lc.beatCache.Get RecordValue.zero k).2 } ∧
    (lc.beatCache.data k = none →
      (lc.Get keys).lookup k =
        some { Record := RecordValue.zero, Exist := false }) := by
  refine ⟨?_, ?_, ?_⟩
  · exact map_fst_tabulate _ keys
  · exact lookup_map_tabulate _ keys k hk
  · intro hmiss
    have h := lookup_map_tabulate
      (fun key =>
        let vo := lc.beatCache.Get RecordValue.zero key
        { Record := vo.1, Exist := vo.2 }) keys k hk
    simpa [LocalBeatRecordCache.Get, SegmentMap.Get, hmiss] using h

/-- C6 witness: scenario S1 — `Get` of the single missing key "nope" on an
empty cache yields the entry `{exist=false, record=zero}`. -/
theorem local_get_entry_for_every_key_witness :
    ((emptyLocalCache.Get ["nope"]).map Prod.fst = ["nope"]) ∧
    (emptyLocalCache.Get ["nope"]).lookup "nope" =
      some { Record := (emptyLocalCache.beatCache.Get RecordValue.zero "nope").1
             Exist := (emptyLocalCache.beatCache.Get RecordValue.zero "nope").2 } ∧
    (emptyLocalCache.beatCache.data "nope" = none →
      (emptyLocalCache.Get ["nope"]).lookup "nope" =
        some { Record := RecordValue.zero, Exist := false }) :=
  local_get_entry_for_every_key emptyLocalCache ["nope"] "nope" (by simp)

/-- C10: the request `RemoteBeatRecordCache.Put` hands to the saver contains
exactly one heartbeat entry per write record, in order, carrying only the
record's `Key` as `InstanceId` (every other message field is at its zero
value), and the request is independent of the records' `RecordValue`
payloads — `Server`, `CurTimeSec` and `Count` are not placed on the wire. -/
theorem remote_put_only_instance_ids (records : List WriteBeatRecord)
    (f : WriteBeatRecord → RecordValue) :
    ((RemoteBeatRecordCache.PutRequest records).Heartbeats.map
        (fun hb => hb.InstanceId) = records.map (fun record => record.Key)) ∧
    ((RemoteBeatRecordCache.PutRequest records).Heartbeats.all
        (fun hb => hb ==
          ({ InstanceId := hb.InstanceId } : apiservice.InstanceHeartbeat)) = true) ∧
    RemoteBeatRecordCache.PutRequest
        (records.map fun record => { record with Record := f record }) =
      RemoteBeatRecordCache.PutRequest records := by
  refine ⟨?_, ?_, ?_⟩
  · simp [RemoteBeatRecordCache.PutRequest, List.map_map, Function.comp]
  · simp only [RemoteBeatRecordCache.PutRequest, List.all_eq_true]
    intro hb hhb
    rcases List.mem_map.mp hhb with ⟨record, _, hrec⟩
    subst hrec
    simp
  · simp [RemoteBeatRecordCache.PutRequest, List.map_map, Function.comp]

/-- C10 witness: a single write record with a non-zero `RecordValue`
payload. -/
theorem remote_put_only_instance_ids_witness :
    ((RemoteBeatRecordCache.PutRequest
        [{ Record := { Server := "s", CurTimeSec := 5, Count := 2 }, Key := "k1" }]).Heartbeats.map
        (fun hb => hb.InstanceId) =
      ([{ Record := { Server := "s", CurTimeSec := 5, Count := 2 }, Key := "k1" }] :
          List WriteBeatRecord).map (fun record => record.Key)) ∧
    ((RemoteBeatRecordCache.PutRequest
        [{ Record := { Server := "s", CurTimeSec := 5, Count := 2 }, Key := "k1" }]).Heartbeats.all
        (fun hb => hb ==
          ({ InstanceId := hb.InstanceId } : apiservice.InstanceHeartbeat)) = true) ∧
    RemoteBeatRecordCache.PutRequest
        (([{ Record := { Server := "s", CurTimeSec := 5, Count := 2 }, Key := "k1" }] :
            List WriteBeatRecord).map fun record =>
          { record with Record := RecordValue.zero }) =
      RemoteBeatRecordCache.PutRequest
        [{ Record := { Server := "s", CurTimeSec := 5, Count := 2 }, Key := "k1" }] :=
  remote_put_only_instance_ids
    [{ Record := { Server := "s", CurTimeSec := 5, Count := 2 }, Key := "k1" }]
    (fun _ => RecordValue.zero)

end leader

namespace v1

/-- When every per-key query reports a nil error, the query loop succeeds
and yields one wire record per key, in request order. -/
lemma batchQuery_ok (c : plugin.HealthChecker) (ids : List String)
    (h : ∀ i ∈ ids, exceptIsOk (c.Query { InstanceId := i }) = true) :
    ∃ records, batchQuery c ids = .ok records ∧
      records.map (fun rec => rec.InstanceId) = ids := by
  induction ids with
  | nil => exact ⟨[], rfl, rfl⟩
  | cons a as ih =>
      have ha := h a (List.mem_cons_self a as)
      obtain ⟨resp, hresp⟩ : ∃ resp, c.Query { InstanceId := a } = .ok resp := by
        cases hq : c.Query { InstanceId := a } with
        | ok r => exact ⟨r, rfl⟩
        | error err =>
            rw [hq] at ha
            simp [exceptIsOk] at ha
      obtain ⟨records, hrec, hmap⟩ := ih fun i hi => h i (List.mem_cons_of_mem a hi)
      refine ⟨{ InstanceId := a
                LastHeartbeatSec := resp.LastHeartbeatSec
                Exist := resp.Exists } :: records, ?_, ?_⟩
      · simp only [batchQuery, hresp, hrec]
      · simp [hmap]

/-- The first failing query aborts the loop with that error. -/
lemma batchQuery_abort (c : plugin.HealthChecker) (pre post : List String)
    (k : String) (e : String)
    (h : ∀ i ∈ pre, exceptIsOk (c.Query { InstanceId := i }) = true)
    (hk : c.Query { InstanceId := k } = .error e) :
    batchQuery c (pre ++ k :: post) = .error e := by
  induction pre with
  | nil =>
      simp only [List.nil_append, batchQuery, hk]
  | cons a as ih =>
      have ha := h a (List.mem_cons_self a as)
      obtain ⟨resp, hresp⟩ : ∃ resp, c.Query { InstanceId := a } = .ok resp := by
        cases hq : c.Query { InstanceId := a } with
        | ok r => exact ⟨r, rfl⟩
        | error err =>
            rw [hq] at ha
            simp [exceptIsOk] at ha
      have htail := ih fun i hi => h i (List.mem_cons_of_mem a hi)
      simp only [List.cons_append, batchQuery, hresp, List.append_eq, htail]

/-- When every per-key delete reports a nil error, the delete loop
succeeds. -/
lemma batchDel_ok (c : plugin.HealthChecker) (ids : List String)
    (h : ∀ i ∈ ids, exceptIsOk (c.Delete i) = true) :
    batchDel c ids = .ok () := by
  induction ids with
  | nil => rfl
  | cons a as ih =>
      have ha := h a (List.mem_cons_self a as)
      obtain ⟨u, hu⟩ : ∃ u, c.Delete a = .ok u := by
        cases hq : c.Delete a with
        | ok r => exact ⟨r, rfl⟩
        | error err =>
            rw [hq] at ha
            simp [exceptIsOk] at ha
      have htail := ih fun i hi => h i (List.mem_cons_of_mem a hi)
      simp only [batchDel, hu, htail]

/-- The first failing delete aborts the loop with that error. -/
lemma batchDel_abort (c : plugin.HealthChecker) (pre post : List String)
    (k : String) (e : String)
    (h : ∀ i ∈ pre, exceptIsOk (c.Delete i) = true)
    (hk : c.Delete k = .error e) :
    batchDel c (pre ++ k :: post) = .error e := by
  induction pre with
  | nil =>
      simp only [List.nil_append, batchDel, hk]
  | cons a as ih =>
      have ha := h a (List.mem_cons_self a as)
      obtain ⟨u, hu⟩ : ∃ u, c.Delete a = .ok u := by
        cases hq : c.Delete a with
        | ok r => exact ⟨r, rfl⟩
        | error err =>
            rw [hq] at ha
            simp [exceptIsOk] at ha
      have htail := ih fun i hi => h i (List.mem_cons_of_mem a hi)
      simp only [List.cons_append, batchDel, hu, List.append_eq, htail]

end v1

/-- C5: `BatchGetHeartbeat` and `BatchDelHeartbeat` return an empty
successful response when no heartbeat checker is registered; otherwise the
first per-record `Query`/`Delete` error aborts the whole batch with that
error, and on success `BatchGetHeartbeat` returns one record per requested
instance id in request order. -/
theorem batch_heartbeat_access (c : plugin.HealthChecker)
    (ids pre post : List String) (k e : String)
    (hq : ∀ i ∈ ids, exceptIsOk (c.Query { InstanceId := i }) = true)
    (hd : ∀ i ∈ ids, exceptIsOk (c.Delete i) = true)
    (hpq : ∀ i ∈ pre, exceptIsOk (c.Query { InstanceId := i }) = true)
    (hpd : ∀ i ∈ pre, exceptIsOk (c.Delete i) = true)
    (hkq : c.Query { InstanceId := k } = .error e)
    (hkd : c.Delete k = .error e) :
    (v1.BatchGetHeartbeat none { InstanceIds := ids } = .ok {} ∧
     v1.BatchDelHeartbeat none { InstanceIds := ids } = .ok {}) ∧
    (∃ resp, v1.BatchGetHeartbeat (some c) { InstanceIds := ids } = .ok resp ∧
       resp.Records.map (fun rec => rec.InstanceId) = ids) ∧
    v1.BatchDelHeartbeat (some c) { InstanceIds := ids } = .ok {} ∧
    v1.BatchGetHeartbeat (some c) { InstanceIds := pre ++ k :: post } = .error e ∧
    v1.BatchDelHeartbeat (some c) { InstanceIds := pre ++ k :: post } = .error e := by
  obtain ⟨records, hrec, hmap⟩ := v1.batchQuery_ok c ids hq
  refine ⟨⟨rfl, rfl⟩, ⟨{ Records := records }, ?_, hmap⟩, ?_, ?_, ?_⟩
  · simp only [v1.BatchGetHeartbeat, hrec]
  · simp only [v1.BatchDelHeartbeat, v1.batchDel_ok c ids hd]
  · simp only [v1.BatchGetHeartbeat, v1.batchQuery_abort c pre post k e hpq hkq]
  · simp only [v1.BatchDelHeartbeat, v1.batchDel_abort c pre post k e hpd hkd]

/-- C5 witness: ids `["a","b"]` all succeed; the batch `["a","bad","c"]`
aborts with "boom" on both endpoints; absent checker gives empty ok. -/
theorem batch_heartbeat_access_witness :
    (v1.BatchGetHeartbeat none { InstanceIds := ["a", "b"] } = .ok {} ∧
     v1.BatchDelHeartbeat none { InstanceIds := ["a", "b"] } = .ok {}) ∧
    (∃ resp, v1.BatchGetHeartbeat (some failOnBadChecker)
        { InstanceIds := ["a", "b"] } = .ok resp ∧
       resp.Records.map (fun rec => rec.InstanceId) = ["a", "b"]) ∧
    v1.BatchDelHeartbeat (some failOnBadChecker)
        { InstanceIds := ["a", "b"] } = .ok {} ∧
    v1.BatchGetHeartbeat (some failOnBadChecker)
        { InstanceIds := ["a"] ++ "bad" :: ["c"] } = .error "boom" ∧
    v1.BatchDelHeartbeat (some failOnBadChecker)
        { InstanceIds := ["a"] ++ "bad" :: ["c"] } = .error "boom" :=
  batch_heartbeat_access failOnBadChecker ["a", "b"] ["a"] ["c"] "bad" "boom"
    (by decide) (by decide) (by decide) (by decide) rfl rfl

namespace leader

/-- Walking response records whose ids are all requested keys preserves the
domain of the result map and never panics. -/
lemma applyRecords_dom (keys : List String)
    (recs : List apiservice.HeartbeatRecord)
    (ret : String → Option ReadBeatRecord)
    (hdom : ∀ x, (ret x).isSome = true ↔ x ∈ keys)
    (hall : ∀ rec ∈ recs, rec.InstanceId ∈ keys) :
    ∃ m, RemoteBeatRecordCache.applyRecords ret recs = some m ∧
      ∀ x, (m x).isSome = true ↔ x ∈ keys := by
  induction recs generalizing ret with
  | nil => exact ⟨ret, rfl, hdom⟩
  | cons rec rest ih =>
      have hmem : rec.InstanceId ∈ keys := hall rec (List.mem_cons_self _ _)
      have hsome : (ret rec.InstanceId).isSome = true := (hdom _).mpr hmem
      obtain ⟨v, hv⟩ := Option.isSome_iff_exists.mp hsome
      have hdom1 : ∀ x,
          ((fun k => if k = rec.InstanceId then
              some ({ Exist := rec.Exist
                      Record := { CurTimeSec := rec.LastHeartbeatSec } } : ReadBeatRecord)
            else ret k) x).isSome = true ↔ x ∈ keys := by
        intro x
        by_cases hx : x = rec.InstanceId
        · subst hx
          simpa using hmem
        · simpa [hx] using hdom x
      obtain ⟨m, hm, hmdom⟩ := ih _ hdom1 fun q hq => hall q (List.mem_cons_of_mem _ hq)
      refine ⟨m, ?_, hmdom⟩
      simp only [RemoteBeatRecordCache.applyRecords, RemoteBeatRecordCache.applyRecord, hv]
      exact hm

/-- A response record whose id is not a requested key makes the walk panic
(`none`). -/
lemma applyRecords_panic (keys : List String)
    (recs : List apiservice.HeartbeatRecord)
    (ret : String → Option ReadBeatRecord)
    (hdom : ∀ x, (ret x).isSome = true ↔ x ∈ keys)
    (hbad : ∃ rec ∈ recs, rec.InstanceId ∉ keys) :
    RemoteBeatRecordCache.applyRecords ret recs = none := by
  induction recs generalizing ret with
  | nil =>
      obtain ⟨rec, hrec, _⟩ := hbad
      cases hrec
  | cons rec rest ih =>
      by_cases hmem : rec.InstanceId ∈ keys
      · have hsome : (ret rec.InstanceId).isSome = true := (hdom _).mpr hmem
        obtain ⟨v, hv⟩ := Option.isSome_iff_exists.mp hsome
        have hdom1 : ∀ x,
            ((fun k => if k = rec.InstanceId then
                some ({ Exist := rec.Exist
                        Record := { CurTimeSec := rec.LastHeartbeatSec } } : ReadBeatRecord)
              else ret k) x).isSome = true ↔ x ∈ keys := by
          intro x
          by_cases hx : x = rec.InstanceId
          · subst hx
            simpa using hmem
          · simpa [hx] using hdom x
        have hbad1 : ∃ q ∈ rest, q.InstanceId ∉ keys := by
          obtain ⟨q, hq, hqk⟩ := hbad
          rcases List.mem_cons.mp hq with h | h
          · subst h
            exact absurd hmem hqk
          · exact ⟨q, h, hqk⟩
        have hm := ih _ hdom1 hbad1
        simp only [RemoteBeatRecordCache.applyRecords, RemoteBeatRecordCache.applyRecord, hv]
        exact hm
      · have hnone : ret rec.InstanceId = none := by
          cases hr : ret rec.InstanceId with
          | none => rfl
          | some v =>
              exact absurd ((hdom _).mp (by simp [hr])) hmem
        simp only [RemoteBeatRecordCache.applyRecords, RemoteBeatRecordCache.applyRecord, hnone]

/-- The initial map of `RemoteBeatRecordCache.Get` is defined exactly on
the requested keys. -/
lemma initial_dom (keys : List String) :
    ∀ x, ((fun k => if keys.contains k then
        some ({ Exist := false } : ReadBeatRecord) else none) x).isSome = true ↔
      x ∈ keys := by
  intro x
  by_cases hx : x ∈ keys <;> simp [hx]

/-- C8: `RemoteBeatRecordCache.Get` is total exactly when every record in
the getter's response carries an `InstanceId` among the requested keys —
then it returns an entry for every requested key and nothing else; a
response containing a record whose `InstanceId` was not requested makes the
miss branch write through a nil map value, a nil-pointer dereference
(modelled as `none`). -/
theorem remote_get_nil_deref
    (getter : apiservice.GetHeartbeatsRequest → apiservice.GetHeartbeatsResponse)
    (keys : List String) :
    ((∀ rec ∈ (getter { InstanceIds := keys }).Records, rec.InstanceId ∈ keys) →
      ∃ m, RemoteBeatRecordCache.Get getter keys = some m ∧
        ∀ x, (m x).isSome = true ↔ x ∈ keys) ∧
    ((∃ rec ∈ (getter { InstanceIds := keys }).Records, rec.InstanceId ∉ keys) →
      RemoteBeatRecordCache.Get getter keys = none) := by
  constructor
  · intro hall
    exact applyRecords_dom keys _ _ (initial_dom keys) hall
  · intro hbad
    exact applyRecords_panic keys _ _ (initial_dom keys) hbad

/-- C8 witness: with requested keys `["a"]`, the well-formed response yields
a total result map, while the stray response makes `Get` panic. -/
theorem remote_get_nil_deref_witness :
    (∃ m, RemoteBeatRecordCache.Get goodGetter ["a"] = some m ∧
       ∀ x, (m x).isSome = true ↔ x ∈ ["a"]) ∧
    RemoteBeatRecordCache.Get strayGetter ["a"] = none :=
  ⟨(remote_get_nil_deref goodGetter ["a"]).1 (by decide),
   (remote_get_nil_deref strayGetter ["a"]).2
     ⟨{ InstanceId := "zz", LastHeartbeatSec := 5, Exist := true }, by decide, by decide⟩⟩

end leader

namespace heartbeatmemory

/-- The query loop of `BatchGetHeartbeat` over the memory checker always
succeeds, returns one record per id in order, and every record's `Exist` is
`false`. -/
lemma batchQuery_memory (r : MemoryHealthChecker) (ids : List String) :
    ∃ records, v1.batchQuery r.asChecker ids = .ok records ∧
      records.map (fun rec => rec.InstanceId) = ids ∧
      records.all (fun rec => !rec.Exist) = true := by
  induction ids with
  | nil => exact ⟨[], rfl, rfl, rfl⟩
  | cons a as ih =>
      obtain ⟨records, hrec, hmap, hex⟩ := ih
      have hq : ∃ resp, r.asChecker.Query { InstanceId := a } = .ok resp ∧
          resp.Exists = false := by
        show ∃ resp, r.Query { InstanceId := a } = .ok resp ∧ resp.Exists = false
        unfold MemoryHealthChecker.Query
        cases r.hbRecords ({ InstanceId := a } : plugin.QueryRequest).InstanceId with
        | none => exact ⟨_, rfl, rfl⟩
        | some record => exact ⟨_, rfl, rfl⟩
      obtain ⟨resp, hresp, hexists⟩ := hq
      refine ⟨{ InstanceId := a
                LastHeartbeatSec := resp.LastHeartbeatSec
                Exist := resp.Exists } :: records, ?_, ?_, ?_⟩
      · simp only [v1.batchQuery, hresp, hrec]
      · simp [hmap]
      · simp only [List.all_cons, hexists]
        simpa using hex

/-- C9: for every `QueryRequest`, `MemoryHealthChecker.Query` returns a nil
error and never sets `Exists=true`, even when a heartbeat record for the
instance is stored; consequently every record `BatchGetHeartbeat` returns
over this checker carries `Exist=false` regardless of whether the instance
has reported. -/
theorem memory_query_never_exists (r : MemoryHealthChecker)
    (request : plugin.QueryRequest) (ids : List String) :
    (∃ resp, r.Query request = .ok resp ∧ resp.Exists = false) ∧
    (∃ gresp, v1.BatchGetHeartbeat (some r.asChecker) { InstanceIds := ids } =
        .ok gresp ∧
      gresp.Records.map (fun rec => rec.InstanceId) = ids ∧
      gresp.Records.all (fun rec => !rec.Exist) = true) := by
  constructor
  · unfold MemoryHealthChecker.Query
    cases r.hbRecords request.InstanceId with
    | none => exact ⟨_, rfl, rfl⟩
    | some record => exact ⟨_, rfl, rfl⟩
  · obtain ⟨records, hrec, hmap, hex⟩ := batchQuery_memory r ids
    refine ⟨{ Records := records }, ?_, hmap, hex⟩
    simp only [v1.BatchGetHeartbeat, hrec]

/-- C9 witness: the S2 checker, which HAS a stored record for "i", still
answers `Exists=false`, and the batch over `["i"]` carries `Exist=false`. -/
theorem memory_query_never_exists_witness :
    (∃ resp, s2Checker.Query { InstanceId := "i" } = .ok resp ∧
       resp.Exists = false) ∧
    (∃ gresp, v1.BatchGetHeartbeat (some s2Checker.asChecker)
        { InstanceIds := ["i"] } = .ok gresp ∧
      gresp.Records.map (fun rec => rec.InstanceId) = ["i"] ∧
      gresp.Records.all (fun rec => !rec.Exist) = true) :=
  memory_query_never_exists s2Checker { InstanceId := "i" } ["i"]

end heartbeatmemory
